import Mathlib

/-!
Verification development for the cs2-analytics demo parser.

Shallow embedding of the row-processing logic of
`apps/parser/src/extractors/grenades.py`, `apps/parser/src/extractors/core.py`,
`apps/parser/src/extractors/events.py` and `apps/parser/src/streaming/writer.py`.

Event tables (pandas DataFrames in the source) are modelled as lists of rows;
numeric fields are Python arbitrary-precision integers, modelled as `Int`
(`Nat` where the source only ever produces nonnegative counts).  Float fields
that no proved property depends on arithmetically (positions, angles) are
omitted; `blind_duration` is kept but modelled as `Int` since it is only
carried and summed, never compared.
-/

namespace CS2Analytics

/-! ### Grenade effect linking (`grenades.py`) -/

/-- A row of the `player_blind` event table. -/
structure BlindRow where
  tick : Int
  attacker_entity_id : Int
  user_steamid : String
  user_name : String
  user_team : Int
  blind_duration : Int
  deriving DecidableEq, Repr

/-- The `player_blind` DataFrame: its rows plus whether the
`attacker_entity_id` column is present in the frame at all. -/
structure BlindTable where
  hasEntityCol : Bool
  rows : List BlindRow
  deriving DecidableEq, Repr

/-- A row of the `flashbang_detonate` event table. -/
structure FlashRow where
  tick : Int
  entityid : Int
  user_steamid : String
  user_name : String
  user_team : Int
  deriving DecidableEq, Repr

/-- `has_entity_linking`: `"attacker_entity_id" in blind_df.columns if not
blind_df.empty else False` (grenades.py lines 173-177). -/
def hasEntityLinking (blind_df : BlindTable) : Bool :=
  if blind_df.rows.isEmpty then false else blind_df.hasEntityCol

/-- The `matching_blinds` selection for one detonation row
(grenades.py lines 188-198): exact entity-id match when entity linking is
available and the detonation's id is positive, otherwise the forward
10-tick window. -/
def matchingBlinds (blind_df : BlindTable) (d : FlashRow) : List BlindRow :=
  if hasEntityLinking blind_df = true ∧ 0 < d.entityid then
    blind_df.rows.filter (fun b => b.attacker_entity_id == d.entityid)
  else
    blind_df.rows.filter (fun b => decide (d.tick ≤ b.tick ∧ b.tick ≤ d.tick + 10))

/-- `is_enemy = victim_team != thrower_team and victim_team != 0`
(grenades.py line 209). -/
def isEnemy (victim_team thrower_team : Int) : Bool :=
  decide (victim_team ≠ thrower_team ∧ victim_team ≠ 0)

/-- One entry of a flash event's `players_blinded` list. -/
structure BlindedEntry where
  steamid : String
  name : String
  team : Int
  duration : Int
  is_enemy : Bool
  deriving DecidableEq, Repr

/-- The entry appended for one matching blind row (grenades.py lines 205-217). -/
def mkBlindedEntry (thrower_team : Int) (b : BlindRow) : BlindedEntry :=
  { steamid := b.user_steamid
    name := b.user_name
    team := b.user_team
    duration := b.blind_duration
    is_enemy := isEnemy b.user_team thrower_team }

/-- The flashbang output record (grenades.py lines 225-240); float position
fields, which are pass-through, are omitted. -/
structure FlashEvent where
  tick : Int
  thrower_steamid : String
  thrower_name : String
  thrower_team : Int
  players_blinded : List BlindedEntry
  enemies_blinded : Nat
  teammates_blinded : Nat
  total_blind_duration : Int
  entity_id : Int
  deriving DecidableEq, Repr

/-- Build the output record for one `flashbang_detonate` row
(grenades.py lines 179-240).  The per-row loop appends one
`players_blinded` entry per matching blind row, increments
`enemies_blinded` when `is_enemy`, otherwise increments
`teammates_blinded` when the victim is on the thrower's team, and sums
the blind durations. -/
def mkFlashEvent (blind_df : BlindTable) (row : FlashRow) : FlashEvent :=
  let ms := matchingBlinds blind_df row
  { tick := row.tick
    thrower_steamid := row.user_steamid
    thrower_name := row.user_name
    thrower_team := row.user_team
    players_blinded := ms.map (mkBlindedEntry row.user_team)
    enemies_blinded := (ms.filter (fun b => isEnemy b.user_team row.user_team)).length
    teammates_blinded :=
      (ms.filter (fun b =>
        !(isEnemy b.user_team row.user_team) && b.user_team == row.user_team)).length
    total_blind_duration := (ms.map (fun b => b.blind_duration)).sum
    entity_id := row.entityid }

/-- `_extract_flashbangs`: one output record per detonation row. -/
def extract_flashbangs (blind_df : BlindTable) (detonate_df : List FlashRow) :
    List FlashEvent :=
  detonate_df.map (mkFlashEvent blind_df)

/-- A row of the `player_hurt` event table (shared with the damage matrix
of `events.py`). -/
structure HurtRow where
  tick : Int
  weapon : String
  attacker_steamid : String
  user_steamid : String
  user_name : String
  user_team : Int
  dmg_health : Int
  deriving DecidableEq, Repr

/-- A row of the `hegrenade_detonate` event table. -/
structure HeRow where
  tick : Int
  entityid : Int
  user_steamid : String
  user_name : String
  user_team : Int
  deriving DecidableEq, Repr

/-- The `nearby_damage` selection for one HE detonation
(grenades.py lines 260-265): forward 5-tick window restricted to
`weapon == "hegrenade"`. -/
def nearbyDamage (hurt_df : List HurtRow) (d : HeRow) : List HurtRow :=
  hurt_df.filter (fun h =>
    decide (d.tick ≤ h.tick ∧ h.tick ≤ d.tick + 5) && (h.weapon == "hegrenade"))

/-- One entry of an HE event's `players_damaged` list. -/
structure DamagedEntry where
  steamid : String
  name : String
  team : Int
  damage : Int
  is_enemy : Bool
  deriving DecidableEq, Repr

/-- The entry appended for one matching hurt row (grenades.py lines 271-283). -/
def mkDamagedEntry (thrower_team : Int) (h : HurtRow) : DamagedEntry :=
  { steamid := h.user_steamid
    name := h.user_name
    team := h.user_team
    damage := h.dmg_health
    is_enemy := isEnemy h.user_team thrower_team }

/-- The HE grenade output record (grenades.py lines 289-303). -/
structure HeEvent where
  tick : Int
  thrower_steamid : String
  thrower_name : String
  thrower_team : Int
  players_damaged : List DamagedEntry
  total_damage : Int
  enemies_damaged : Nat
  entity_id : Int
  deriving DecidableEq, Repr

/-- Build the output record for one `hegrenade_detonate` row
(grenades.py lines 255-303). -/
def mkHeEvent (hurt_df : List HurtRow) (row : HeRow) : HeEvent :=
  let nearby := nearbyDamage hurt_df row
  { tick := row.tick
    thrower_steamid := row.user_steamid
    thrower_name := row.user_name
    thrower_team := row.user_team
    players_damaged := nearby.map (mkDamagedEntry row.user_team)
    total_damage := (nearby.map (fun h => h.dmg_health)).sum
    enemies_damaged := (nearby.filter (fun h => isEnemy h.user_team row.user_team)).length
    entity_id := row.entityid }

/-- `_extract_he_grenades`: one output record per detonation row. -/
def extract_he_grenades (hurt_df : List HurtRow) (detonate_df : List HeRow) :
    List HeEvent :=
  detonate_df.map (mkHeEvent hurt_df)

/-! ### Round reconstruction (`core.py` `_extract_rounds`) -/

/-- A row of the `round_start` event table.  `tick` is `none` for a malformed
row whose tick value is missing (NaN); `int(start_row["tick"])` raises on such
a row.  `round` is the row's own round counter when the column carries one
(`start_row.get("round", i + 1)`). -/
structure StartRow where
  tick : Option Int
  round : Option Int
  deriving DecidableEq, Repr

/-- A row of the `round_end` event table; `winner` is the side string
reported by demoparser2 (`"CT"` / `"T"` / other). -/
structure EndRow where
  tick : Option Int
  winner : String
  deriving DecidableEq, Repr

/-- `winner_team = 3 if winner_str == "CT" else (2 if winner_str == "T" else 0)`
(core.py line 351). -/
def winnerTeamOf (winner : String) : Int :=
  if winner == "CT" then 3 else if winner == "T" then 2 else 0

/-- The predicate of `round_ends[round_ends["tick"] > start_tick]`
(core.py line 342); a missing tick (NaN) compares false. -/
def endTickAfter (start_tick : Int) (e : EndRow) : Bool :=
  match e.tick with
  | some te => decide (start_tick < te)
  | none => false

/-- The reconstructed round record (core.py lines 409-429) restricted to the
fields the development reasons about; the remaining fields (freeze tick,
bomb sub-state, win reason) are independent per-round enrichments that no
proved property mentions. -/
structure RoundInfo where
  round_number : Int
  start_tick : Int
  end_tick : Int
  winner_team : Int
  ct_score : Int
  t_score : Int
  is_pistol_round : Bool
  deriving DecidableEq, Repr

/-- The body of the `for i, (_, start_row) in enumerate(round_starts.iterrows())`
loop of `_extract_rounds` (core.py lines 337-429), with the running scores as
accumulators.  A start row with a missing tick makes `int(start_row["tick"])`
raise; the `except` wrapping the whole loop then returns the rounds built so
far, which is modelled by ending the list at that row. -/
def extractRoundsAux : List StartRow → Nat → List EndRow → Int → Int → List RoundInfo
  | [], _, _, _, _ => []
  | s :: rest, i, round_ends, ct_score, t_score =>
    match s.tick with
    | none => []
    | some start_tick =>
      let round_num := s.round.getD ((i : Int) + 1)
      match (round_ends.filter (endTickAfter start_tick)).head? with
      | none => extractRoundsAux rest (i + 1) round_ends ct_score t_score
      | some e =>
        match e.tick with
        | none => []
        | some end_tick =>
          let winner_team := winnerTeamOf e.winner
          let ct' := if winner_team = 3 then ct_score + 1 else ct_score
          let t' := if winner_team = 2 then t_score + 1 else t_score
          { round_number := round_num
            start_tick := start_tick
            end_tick := end_tick
            winner_team := winner_team
            ct_score := ct'
            t_score := t'
            is_pistol_round := decide (round_num = 1 ∨ round_num = 13) }
            :: extractRoundsAux rest (i + 1) round_ends ct' t'

/-- `_extract_rounds` (core.py lines 311-434): empty start or end tables yield
an empty round list, otherwise the rows are folded with scores starting at 0. -/
def extract_rounds (round_starts : List StartRow) (round_ends : List EndRow) :
    List RoundInfo :=
  if round_starts.isEmpty then []
  else if round_ends.isEmpty then []
  else extractRoundsAux round_starts 0 round_ends 0 0

/-! ### Damage matrix (`events.py` `extract_damage_matrix`) -/

/-- Add `damage` to `inner[victim]`, creating the key at 0 first as the
source does (events.py lines 234-236); the dict is modelled as an
association list. -/
def damageMatrixAddInner (inner : List (String × Int)) (victim : String)
    (damage : Int) : List (String × Int) :=
  match inner with
  | [] => [(victim, damage)]
  | (k, d) :: rest =>
    if k = victim then (k, d + damage) :: rest
    else (k, d) :: damageMatrixAddInner rest victim damage

/-- Add `damage` to `damage_matrix[attacker][victim]`, creating missing keys
(events.py lines 232-236). -/
def damageMatrixAdd (m : List (String × List (String × Int))) (attacker victim : String)
    (damage : Int) : List (String × List (String × Int)) :=
  match m with
  | [] => [(attacker, [(victim, damage)])]
  | (k, inner) :: rest =>
    if k = attacker then (k, damageMatrixAddInner inner victim damage) :: rest
    else (k, inner) :: damageMatrixAdd rest attacker victim damage

/-- The loop body of `extract_damage_matrix` for one `player_hurt` row
(events.py lines 226-236): record damage only when
`attacker and victim and attacker != "0"` (line 231) — i.e. both id strings
nonempty and the attacker id not `"0"`. -/
def damageMatrixStep (m : List (String × List (String × Int))) (row : HurtRow) :
    List (String × List (String × Int)) :=
  let attacker := row.attacker_steamid
  let victim := row.user_steamid
  let damage := row.dmg_health
  if attacker ≠ "" ∧ victim ≠ "" ∧ attacker ≠ "0" then
    damageMatrixAdd m attacker victim damage
  else m

/-- `extract_damage_matrix` (events.py lines 215-241): fold the loop body
over the `player_hurt` rows starting from the empty dict. -/
def extract_damage_matrix (hurt_df : List HurtRow) :
    List (String × List (String × Int)) :=
  hurt_df.foldl damageMatrixStep []

/-- Sum of one attacker's row of the damage matrix. -/
def innerTotal (inner : List (String × Int)) : Int :=
  (inner.map (fun p => p.2)).sum

/-- Grand total of the damage matrix: the sum of all per-(attacker, victim)
cumulative damages. -/
def matrixTotal (m : List (String × List (String × Int))) : Int :=
  (m.map (fun p => innerTotal p.2)).sum

/-! ### Streaming tick chunks (`core.py` `parse_streaming`, lines 190-207) -/

/-- A `StreamingChunk` with `chunk_type="ticks"`; `ticks` is the slice
`all_ticks[start_idx:end_idx]` carried in its `data` field. -/
structure TicksChunk (α : Type) where
  chunk_index : Nat
  total_chunks : Nat
  ticks : List α
  deriving DecidableEq, Repr

/-- `num_chunks = (total_ticks + chunk_size - 1) // chunk_size`
(core.py line 195). -/
def numChunks (total_ticks chunk_size : Nat) : Nat :=
  (total_ticks + chunk_size - 1) / chunk_size

/-- The tick-chunk loop of `parse_streaming` (core.py lines 190-207):
`start_idx = i * chunk_size`, `end_idx = min((i + 1) * chunk_size, total_ticks)`,
chunk carries `all_ticks[start_idx:end_idx]`. -/
def parse_streaming_ticks {α : Type} (all_ticks : List α) (chunk_size : Nat) :
    List (TicksChunk α) :=
  let total_ticks := all_ticks.length
  let num_chunks := numChunks total_ticks chunk_size
  (List.range num_chunks).map (fun i =>
    let start_idx := i * chunk_size
    let end_idx := min ((i + 1) * chunk_size) total_ticks
    { chunk_index := i
      total_chunks := num_chunks
      ticks := (all_ticks.drop start_idx).take (end_idx - start_idx) })

/-! ### Output writers (`streaming/writer.py`)

A `StreamingChunk` as the writers see it: a self-describing record whose
payload bytes are opaque here.  The bytes a writer puts in its output file
are a fixed serialization of the chunk records it writes, so recording the
chunk records themselves determines the bytes. -/

structure SChunk where
  chunk_type : String
  chunk_index : Nat
  total_chunks : Option Nat
  payload : String
  deriving DecidableEq, Repr

/-- State of `NDJSONWriter`: the constructor opens the sink; `written` is
the sequence of lines already written to it; `closeCount` instruments the
number of `close()` calls issued on the sink, used to state the
release-exactly-once property. -/
structure NDJSONWriter where
  fileOpen : Bool
  written : List SChunk
  closeCount : Nat
  deriving DecidableEq, Repr

/-- `NDJSONWriter.__init__` + `_open_file` (writer.py lines 54-72):
the sink is open, nothing written yet. -/
def NDJSONWriter.init : NDJSONWriter :=
  { fileOpen := true, written := [], closeCount := 0 }

/-- `NDJSONWriter.write_chunk` (writer.py lines 74-87): raises
`RuntimeError` when the sink has been released, else appends one line. -/
def NDJSONWriter.write_chunk (w : NDJSONWriter) (c : SChunk) :
    Except String NDJSONWriter :=
  if w.fileOpen then Except.ok { w with written := w.written ++ [c] }
  else Except.error "Writer not initialized"

/-- `NDJSONWriter.finalize` (writer.py lines 143-148): close and drop the
handle when it is still held, else do nothing. -/
def NDJSONWriter.finalize (w : NDJSONWriter) : NDJSONWriter :=
  if w.fileOpen then
    { w with fileOpen := false, closeCount := w.closeCount + 1 }
  else w

/-- A fresh NDJSON writer after a sequence of `write_chunk` calls. -/
def NDJSONWriter.runWrites (cs : List SChunk) : Except String NDJSONWriter :=
  cs.foldlM NDJSONWriter.write_chunk NDJSONWriter.init

/-- State of `JSONWriter`: `chunks` is the buffer, `fileBytes` the contents
of the output file once written (`none` while no file has been written),
`writeCount` instruments the number of times the output file was opened,
written and released. -/
structure JSONWriter where
  chunks : List SChunk
  fileBytes : Option (List SChunk)
  writeCount : Nat
  deriving DecidableEq, Repr

/-- `JSONWriter.__init__` (writer.py lines 159-166). -/
def JSONWriter.init : JSONWriter :=
  { chunks := [], fileBytes := none, writeCount := 0 }

/-- `JSONWriter.write_chunk` (writer.py lines 168-170): buffer the chunk. -/
def JSONWriter.write_chunk (w : JSONWriter) (c : SChunk) : JSONWriter :=
  { w with chunks := w.chunks ++ [c] }

/-- `JSONWriter.finalize` (writer.py lines 190-228): return immediately on an
empty buffer; otherwise combine the buffered chunks, write the output file
once, and clear the buffer.  The written bytes are a fixed serialization of
the buffered chunk sequence, recorded as that sequence. -/
def JSONWriter.finalize (w : JSONWriter) : JSONWriter :=
  if w.chunks.isEmpty then w
  else { chunks := [], fileBytes := some w.chunks, writeCount := w.writeCount + 1 }

/-- A fresh JSON writer after a sequence of `write_chunk` calls. -/
def JSONWriter.runWrites (cs : List SChunk) : JSONWriter :=
  cs.foldl JSONWriter.write_chunk JSONWriter.init

/-! ## Theorems -/

/-- Projection of the flash output record onto its blinded list. -/
lemma mkFlashEvent_players (blind_df : BlindTable) (row : FlashRow) :
    (mkFlashEvent blind_df row).players_blinded =
      (matchingBlinds blind_df row).map (mkBlindedEntry row.user_team) := rfl

/-- Projection of the HE output record onto its damaged list. -/
lemma mkHeEvent_players (hurt_df : List HurtRow) (row : HeRow) :
    (mkHeEvent hurt_df row).players_damaged =
      (nearbyDamage hurt_df row).map (mkDamagedEntry row.user_team) := rfl

/-- On the entity branch, every matched blind row carries exactly the
detonation's entity id. -/
lemma matchingBlinds_entity_eq (blind_df : BlindTable) (d : FlashRow)
    (hcol : hasEntityLinking blind_df = true) (hd : 0 < d.entityid) :
    ∀ b ∈ matchingBlinds blind_df d, b.attacker_entity_id = d.entityid := by
  intro b hb
  unfold matchingBlinds at hb
  rw [if_pos ⟨hcol, hd⟩] at hb
  exact eq_of_beq (List.mem_filter.mp hb).2

/-- C1: when the `player_blind` table carries the attacker-entity column and a
flash detonation has a positive (nonzero) entity id, linking is by exact
entity-id equality only: every attributed blind row carries the detonation's
entity id, and two detonations with different positive entity ids never share
an attributed blind row, regardless of tick distance. -/
theorem c1_entity_linking_exact (blind_df : BlindTable) (d d' : FlashRow)
    (hcol : hasEntityLinking blind_df = true)
    (hd : 0 < d.entityid) (hd' : 0 < d'.entityid)
    (hne : d.entityid ≠ d'.entityid) :
    (∀ b ∈ matchingBlinds blind_df d, b.attacker_entity_id = d.entityid) ∧
    (∀ b ∈ matchingBlinds blind_df d, b ∉ matchingBlinds blind_df d') := by
  refine ⟨matchingBlinds_entity_eq blind_df d hcol hd, ?_⟩
  intro b hb hb'
  exact hne (by
    rw [← matchingBlinds_entity_eq blind_df d hcol hd b hb,
      matchingBlinds_entity_eq blind_df d' hcol hd' b hb'])

/-- Witness for C1: the spec's example.  Flash detonates at tick 1000 with
entity id 42, thrower on team T (2); blind rows `(entity 42, tick 1005, CT)`
and `(entity 99, tick 1006, CT)`.  The entity-99 row is not attributed to the
flash despite being inside the 10-tick window, and `enemies_blinded` counts
exactly the one entity-42 victim. -/
theorem c1_entity_linking_exact_witness :
    (⟨1006, 99, "V2", "v2", 3, 2⟩ : BlindRow) ∉
      matchingBlinds
        ⟨true, [⟨1005, 42, "V1", "v1", 3, 2⟩, ⟨1006, 99, "V2", "v2", 3, 2⟩]⟩
        ⟨1000, 42, "TH", "th", 2⟩ ∧
    (mkFlashEvent
        ⟨true, [⟨1005, 42, "V1", "v1", 3, 2⟩, ⟨1006, 99, "V2", "v2", 3, 2⟩]⟩
        ⟨1000, 42, "TH", "th", 2⟩).enemies_blinded = 1 := by
  constructor
  · intro hmem
    have h :=
      (c1_entity_linking_exact
        ⟨true, [⟨1005, 42, "V1", "v1", 3, 2⟩, ⟨1006, 99, "V2", "v2", 3, 2⟩]⟩
        ⟨1000, 42, "TH", "th", 2⟩ ⟨1000, 99, "X", "x", 2⟩
        (by decide) (by decide) (by decide) (by decide)).1 _ hmem
    simp at h
  · decide

/-- Counterexample to C2: two flash detonations at ticks 1000 and 1005 (no
entity linking available) and a single blind row at tick 1006.  The blind row
lies inside both 10-tick windows and is attributed to both detonations, so it
appears in more than one detonation's effect list — attribution is not
restricted to the earliest matching detonation. -/
theorem c2_counterexample :
    (⟨1000, 0, "A", "a", 2⟩ : FlashRow).tick < (⟨1005, 0, "B", "b", 2⟩ : FlashRow).tick ∧
    (⟨1006, 0, "V", "v", 3, 2⟩ : BlindRow) ∈
      matchingBlinds ⟨false, [⟨1006, 0, "V", "v", 3, 2⟩]⟩ ⟨1000, 0, "A", "a", 2⟩ ∧
    (⟨1006, 0, "V", "v", 3, 2⟩ : BlindRow) ∈
      matchingBlinds ⟨false, [⟨1006, 0, "V", "v", 3, 2⟩]⟩ ⟨1005, 0, "B", "b", 2⟩ ∧
    (extract_flashbangs ⟨false, [⟨1006, 0, "V", "v", 3, 2⟩]⟩
        [⟨1000, 0, "A", "a", 2⟩, ⟨1005, 0, "B", "b", 2⟩]).map
      (fun ev => ev.players_blinded.length) = [1, 1] := by decide

/-- C2 (amended): under temporal-window linking an effect row is attributed to
every detonation whose window contains its tick, not only the earliest one;
each such detonation's output record carries the corresponding effect entry,
so rows in overlapping windows are counted once per covering detonation. -/
theorem c2_amended_window_attribution :
    (∀ (blind_df : BlindTable) (ds : List FlashRow) (d : FlashRow) (b : BlindRow),
      hasEntityLinking blind_df = false → d ∈ ds → b ∈ blind_df.rows →
      d.tick ≤ b.tick → b.tick ≤ d.tick + 10 →
      mkBlindedEntry d.user_team b ∈ (mkFlashEvent blind_df d).players_blinded ∧
      mkFlashEvent blind_df d ∈ extract_flashbangs blind_df ds) ∧
    (∀ (hurt_df : List HurtRow) (ds : List HeRow) (d : HeRow) (h : HurtRow),
      d ∈ ds → h ∈ hurt_df → h.weapon = "hegrenade" →
      d.tick ≤ h.tick → h.tick ≤ d.tick + 5 →
      mkDamagedEntry d.user_team h ∈ (mkHeEvent hurt_df d).players_damaged ∧
      mkHeEvent hurt_df d ∈ extract_he_grenades hurt_df ds) := by
  constructor
  · intro blind_df ds d b hnl hd hb h1 h2
    have hbm : b ∈ matchingBlinds blind_df d := by
      unfold matchingBlinds
      rw [if_neg (by rintro ⟨hl, _⟩; rw [hnl] at hl; exact Bool.false_ne_true hl)]
      exact List.mem_filter.mpr ⟨hb, decide_eq_true ⟨h1, h2⟩⟩
    refine ⟨?_, List.mem_map_of_mem _ hd⟩
    rw [mkFlashEvent_players]
    exact List.mem_map_of_mem _ hbm
  · intro hurt_df ds d h hd hh hweap h1 h2
    have hbm : h ∈ nearbyDamage hurt_df d := by
      unfold nearbyDamage
      refine List.mem_filter.mpr ⟨hh, ?_⟩
      rw [Bool.and_eq_true]
      exact ⟨decide_eq_true ⟨h1, h2⟩, beq_iff_eq.mpr hweap⟩
    refine ⟨?_, List.mem_map_of_mem _ hd⟩
    rw [mkHeEvent_players]
    exact List.mem_map_of_mem _ hbm

/-- Witness for C2 (amended): the counterexample data, attributed to the later
of the two covering detonations, and an HE analog. -/
theorem c2_amended_window_attribution_witness :
    mkBlindedEntry 2 ⟨1006, 0, "V", "v", 3, 2⟩ ∈
      (mkFlashEvent ⟨false, [⟨1006, 0, "V", "v", 3, 2⟩]⟩
        ⟨1005, 0, "B", "b", 2⟩).players_blinded ∧
    mkDamagedEntry 2 ⟨1003, "hegrenade", "A", "V", "v", 3, 40⟩ ∈
      (mkHeEvent [⟨1003, "hegrenade", "A", "V", "v", 3, 40⟩]
        ⟨1000, 7, "B", "b", 2⟩).players_damaged := by
  constructor
  · exact (c2_amended_window_attribution.1
      ⟨false, [⟨1006, 0, "V", "v", 3, 2⟩]⟩
      [⟨1000, 0, "A", "a", 2⟩, ⟨1005, 0, "B", "b", 2⟩] ⟨1005, 0, "B", "b", 2⟩
      ⟨1006, 0, "V", "v", 3, 2⟩ (by decide) (by decide) (by decide)
      (by decide) (by decide)).1
  · exact (c2_amended_window_attribution.2
      [⟨1003, "hegrenade", "A", "V", "v", 3, 40⟩]
      [⟨1000, 7, "B", "b", 2⟩] ⟨1000, 7, "B", "b", 2⟩
      ⟨1003, "hegrenade", "A", "V", "v", 3, 40⟩ (by decide) (by decide) rfl
      (by decide) (by decide)).1

/-- C3: both temporal windows are forward-only and inclusive at both ends.
On the window branch a blind row at exactly `flash_tick + 10` is linked, one
at `flash_tick + 11` is not, and one before `flash_tick` is not; a
hegrenade-weapon hurt row at exactly `he_tick + 5` is linked, one at
`he_tick + 6` is not, and one before `he_tick` is not. -/
theorem c3_window_boundaries (blind_df : BlindTable) (d : FlashRow) (b : BlindRow)
    (hw : ¬(hasEntityLinking blind_df = true ∧ 0 < d.entityid))
    (hurt_df : List HurtRow) (he : HeRow) (h : HurtRow)
    (hweap : h.weapon = "hegrenade") :
    (b ∈ blind_df.rows → b.tick = d.tick + 10 → b ∈ matchingBlinds blind_df d) ∧
    (b.tick = d.tick + 11 → b ∉ matchingBlinds blind_df d) ∧
    (b.tick < d.tick → b ∉ matchingBlinds blind_df d) ∧
    (h ∈ hurt_df → h.tick = he.tick + 5 → h ∈ nearbyDamage hurt_df he) ∧
    (h.tick = he.tick + 6 → h ∉ nearbyDamage hurt_df he) ∧
    (h.tick < he.tick → h ∉ nearbyDamage hurt_df he) := by
  have hwin : ∀ b', b' ∈ matchingBlinds blind_df d →
      b' ∈ blind_df.rows ∧ d.tick ≤ b'.tick ∧ b'.tick ≤ d.tick + 10 := by
    intro b' hb'
    unfold matchingBlinds at hb'
    rw [if_neg hw] at hb'
    have hmf := List.mem_filter.mp hb'
    exact ⟨hmf.1, of_decide_eq_true hmf.2⟩
  have hhe : ∀ h', h' ∈ nearbyDamage hurt_df he →
      h' ∈ hurt_df ∧ (he.tick ≤ h'.tick ∧ h'.tick ≤ he.tick + 5) := by
    intro h' hh'
    have hmf := List.mem_filter.mp hh'
    rw [Bool.and_eq_true] at hmf
    exact ⟨hmf.1, of_decide_eq_true hmf.2.1⟩
  refine ⟨?_, ?_, ?_, ?_, ?_, ?_⟩
  · intro hmem heq
    unfold matchingBlinds
    rw [if_neg hw]
    exact List.mem_filter.mpr ⟨hmem, decide_eq_true (by omega)⟩
  · intro heq hmem
    have := (hwin b hmem).2
    omega
  · intro hlt hmem
    have := (hwin b hmem).2
    omega
  · intro hmem heq
    refine List.mem_filter.mpr ⟨hmem, ?_⟩
    rw [Bool.and_eq_true]
    exact ⟨decide_eq_true (by omega), beq_iff_eq.mpr hweap⟩
  · intro heq hmem
    have := (hhe h hmem).2
    omega
  · intro hlt hmem
    have := (hhe h hmem).2
    omega

/-- Witness for C3: concrete boundary rows around a flash at tick 1000 and an
HE at tick 2000. -/
theorem c3_window_boundaries_witness :
    (⟨1010, 0, "V", "v", 3, 2⟩ : BlindRow) ∈
      matchingBlinds ⟨false, [⟨1010, 0, "V", "v", 3, 2⟩]⟩ ⟨1000, 0, "A", "a", 2⟩ ∧
    (⟨1011, 0, "W", "w", 3, 2⟩ : BlindRow) ∉
      matchingBlinds ⟨false, [⟨1011, 0, "W", "w", 3, 2⟩]⟩ ⟨1000, 0, "A", "a", 2⟩ ∧
    (⟨2005, "hegrenade", "A", "V", "v", 3, 40⟩ : HurtRow) ∈
      nearbyDamage [⟨2005, "hegrenade", "A", "V", "v", 3, 40⟩] ⟨2000, 7, "B", "b", 2⟩ ∧
    (⟨2006, "hegrenade", "A", "W", "w", 3, 40⟩ : HurtRow) ∉
      nearbyDamage [⟨2006, "hegrenade", "A", "W", "w", 3, 40⟩] ⟨2000, 7, "B", "b", 2⟩ := by
  refine ⟨?_, ?_, ?_, ?_⟩
  · exact (c3_window_boundaries ⟨false, [⟨1010, 0, "V", "v", 3, 2⟩]⟩
      ⟨1000, 0, "A", "a", 2⟩ ⟨1010, 0, "V", "v", 3, 2⟩ (by decide)
      [⟨2005, "hegrenade", "A", "V", "v", 3, 40⟩] ⟨2000, 7, "B", "b", 2⟩
      ⟨2005, "hegrenade", "A", "V", "v", 3, 40⟩ rfl).1 (by decide) (by decide)
  · exact (c3_window_boundaries ⟨false, [⟨1011, 0, "W", "w", 3, 2⟩]⟩
      ⟨1000, 0, "A", "a", 2⟩ ⟨1011, 0, "W", "w", 3, 2⟩ (by decide)
      [⟨2005, "hegrenade", "A", "V", "v", 3, 40⟩] ⟨2000, 7, "B", "b", 2⟩
      ⟨2005, "hegrenade", "A", "V", "v", 3, 40⟩ rfl).2.1 (by decide)
  · exact (c3_window_boundaries ⟨false, [⟨1010, 0, "V", "v", 3, 2⟩]⟩
      ⟨1000, 0, "A", "a", 2⟩ ⟨1010, 0, "V", "v", 3, 2⟩ (by decide)
      [⟨2005, "hegrenade", "A", "V", "v", 3, 40⟩] ⟨2000, 7, "B", "b", 2⟩
      ⟨2005, "hegrenade", "A", "V", "v", 3, 40⟩ rfl).2.2.2.1 (by decide) (by decide)
  · exact (c3_window_boundaries ⟨false, [⟨1010, 0, "V", "v", 3, 2⟩]⟩
      ⟨1000, 0, "A", "a", 2⟩ ⟨1010, 0, "V", "v", 3, 2⟩ (by decide)
      [⟨2006, "hegrenade", "A", "W", "w", 3, 40⟩] ⟨2000, 7, "B", "b", 2⟩
      ⟨2006, "hegrenade", "A", "W", "w", 3, 40⟩ rfl).2.2.2.2.1 (by decide)

/-! ### Round reconstruction lemmas -/

/-- Unfolding: a start row whose tick is missing ends the reconstruction. -/
lemma extractRoundsAux_cons_badtick (s : StartRow) (rest : List StartRow)
    (i : Nat) (ends : List EndRow) (ct t : Int) (hs : s.tick = none) :
    extractRoundsAux (s :: rest) i ends ct t = [] := by
  simp [extractRoundsAux, hs]

/-- Unfolding: a start row with no later end row is dropped. -/
lemma extractRoundsAux_cons_noend (s : StartRow) (rest : List StartRow)
    (i : Nat) (ends : List EndRow) (ct t st : Int) (hs : s.tick = some st)
    (hend : (ends.filter (endTickAfter st)).head? = none) :
    extractRoundsAux (s :: rest) i ends ct t =
      extractRoundsAux rest (i + 1) ends ct t := by
  simp [extractRoundsAux, hs, hend]

/-- Unfolding: a start row with a matching end row produces one round. -/
lemma extractRoundsAux_cons_found (s : StartRow) (rest : List StartRow)
    (i : Nat) (ends : List EndRow) (ct t st te : Int) (e : EndRow)
    (hs : s.tick = some st)
    (hend : (ends.filter (endTickAfter st)).head? = some e)
    (hte : e.tick = some te) :
    extractRoundsAux (s :: rest) i ends ct t =
      { round_number := s.round.getD ((i : Int) + 1)
        start_tick := st
        end_tick := te
        winner_team := winnerTeamOf e.winner
        ct_score := if winnerTeamOf e.winner = 3 then ct + 1 else ct
        t_score := if winnerTeamOf e.winner = 2 then t + 1 else t
        is_pistol_round := decide (s.round.getD ((i : Int) + 1) = 1 ∨
          s.round.getD ((i : Int) + 1) = 13) }
      :: extractRoundsAux rest (i + 1) ends
          (if winnerTeamOf e.winner = 3 then ct + 1 else ct)
          (if winnerTeamOf e.winner = 2 then t + 1 else t) := by
  simp [extractRoundsAux, hs, hend, hte]

/-- The selected end row has a tick, and it lies strictly after the start. -/
lemma head_filter_endTick (ends : List EndRow) (st : Int) (e : EndRow)
    (hend : (ends.filter (endTickAfter st)).head? = some e) :
    ∃ te, e.tick = some te ∧ st < te := by
  have hmem : e ∈ ends.filter (endTickAfter st) := List.mem_of_mem_head? hend
  have hp := (List.mem_filter.mp hmem).2
  unfold endTickAfter at hp
  cases hte : e.tick with
  | none => rw [hte] at hp; simp at hp
  | some te =>
    rw [hte] at hp
    exact ⟨te, rfl, of_decide_eq_true hp⟩

/-- Running-score invariant of the reconstruction loop: when every produced
round has winner 2 or 3, the k-th produced round's scores sum to the
accumulator total plus k + 1. -/
lemma extractRoundsAux_scores :
    ∀ (starts : List StartRow) (i : Nat) (ends : List EndRow) (ct t : Int),
      (∀ r ∈ extractRoundsAux starts i ends ct t,
        r.winner_team = 2 ∨ r.winner_team = 3) →
      ∀ (k : Nat) (r : RoundInfo),
        (extractRoundsAux starts i ends ct t)[k]? = some r →
        r.ct_score + r.t_score = ct + t + (k + 1) := by
  intro starts
  induction starts with
  | nil => intro i ends ct t hw k r hr; simp [extractRoundsAux] at hr
  | cons s rest ih =>
    intro i ends ct t hw k r hr
    cases hs : s.tick with
    | none =>
      rw [extractRoundsAux_cons_badtick s rest i ends ct t hs] at hr
      simp at hr
    | some st =>
      cases hend : (ends.filter (endTickAfter st)).head? with
      | none =>
        rw [extractRoundsAux_cons_noend s rest i ends ct t st hs hend] at hw hr
        exact ih (i + 1) ends ct t hw k r hr
      | some e =>
        obtain ⟨te, hte, _⟩ := head_filter_endTick ends st e hend
        rw [extractRoundsAux_cons_found s rest i ends ct t st te e hs hend hte]
          at hw hr
        have hwt : winnerTeamOf e.winner = 2 ∨ winnerTeamOf e.winner = 3 := by
          have hh := hw _ (List.mem_cons_self _ _)
          simpa using hh
        have hacc : (if winnerTeamOf e.winner = 3 then ct + 1 else ct) +
            (if winnerTeamOf e.winner = 2 then t + 1 else t) = ct + t + 1 := by
          rcases hwt with h | h <;> rw [h] <;> norm_num <;> ring
        cases k with
        | zero =>
          rw [List.getElem?_cons_zero] at hr
          cases hr
          simpa using hacc
        | succ k =>
          rw [List.getElem?_cons_succ] at hr
          have hih := ih (i + 1) ends
            (if winnerTeamOf e.winner = 3 then ct + 1 else ct)
            (if winnerTeamOf e.winner = 2 then t + 1 else t)
            (fun r' hr' => hw r' (List.mem_cons_of_mem _ hr')) k r hr
          push_cast at hih ⊢
          omega

/-- C4: whenever every reconstructed round's matched end row reports a CT or T
winner (winner_team 2 or 3 throughout), the k-th returned round (0-based k)
has ct_score + t_score = k + 1, i.e. its 1-based position in the sequence. -/
theorem c4_score_invariant (round_starts : List StartRow) (round_ends : List EndRow)
    (hw : ∀ r ∈ extract_rounds round_starts round_ends,
      r.winner_team = 2 ∨ r.winner_team = 3) :
    ∀ (k : Nat) (r : RoundInfo),
      (extract_rounds round_starts round_ends)[k]? = some r →
      r.ct_score + r.t_score = k + 1 := by
  intro k r hr
  unfold extract_rounds at hw hr
  cases h1 : round_starts.isEmpty with
  | true => rw [h1] at hr; simp at hr
  | false =>
    rw [h1] at hw hr
    cases h2 : round_ends.isEmpty with
    | true => rw [h2] at hr; simp at hr
    | false =>
      rw [h2] at hw hr
      have h := extractRoundsAux_scores round_starts 0 round_ends 0 0 hw k r hr
      push_cast at h ⊢
      omega

/-- Witness for C4: the spec's example — starts at ticks 0 and 5000, ends at
4800 (winner T) and 9800 (winner CT) give Round 1 with winner_team 2,
t_score 1, ct_score 0 and Round 2 with winner_team 3, t_score 1, ct_score 1;
the theorem applied at k = 1 gives score sum 2. -/
theorem c4_score_invariant_witness :
    extract_rounds [⟨some 0, none⟩, ⟨some 5000, none⟩]
        [⟨some 4800, "T"⟩, ⟨some 9800, "CT"⟩] =
      [⟨1, 0, 4800, 2, 0, 1, true⟩, ⟨2, 5000, 9800, 3, 1, 1, false⟩] ∧
    (⟨2, 5000, 9800, 3, 1, 1, false⟩ : RoundInfo).ct_score +
      (⟨2, 5000, 9800, 3, 1, 1, false⟩ : RoundInfo).t_score = 1 + 1 := by
  refine ⟨by decide, ?_⟩
  exact c4_score_invariant [⟨some 0, none⟩, ⟨some 5000, none⟩]
    [⟨some 4800, "T"⟩, ⟨some 9800, "CT"⟩] (by decide) 1
    ⟨2, 5000, 9800, 3, 1, 1, false⟩ (by decide)

/-- Every produced round's start tick lies strictly before its end tick. -/
lemma extractRoundsAux_start_lt_end :
    ∀ (starts : List StartRow) (i : Nat) (ends : List EndRow) (ct t : Int),
      ∀ r ∈ extractRoundsAux starts i ends ct t, r.start_tick < r.end_tick := by
  intro starts
  induction starts with
  | nil => intro i ends ct t r hr; simp [extractRoundsAux] at hr
  | cons s rest ih =>
    intro i ends ct t r hr
    cases hs : s.tick with
    | none =>
      rw [extractRoundsAux_cons_badtick s rest i ends ct t hs] at hr
      simp at hr
    | some st =>
      cases hend : (ends.filter (endTickAfter st)).head? with
      | none =>
        rw [extractRoundsAux_cons_noend s rest i ends ct t st hs hend] at hr
        exact ih (i + 1) ends ct t r hr
      | some e =>
        obtain ⟨te, hte, hlt⟩ := head_filter_endTick ends st e hend
        rw [extractRoundsAux_cons_found s rest i ends ct t st te e hs hend hte] at hr
        rcases List.mem_cons.mp hr with h | h
        · rw [h]; exact hlt
        · exact ih (i + 1) ends _ _ r h

/-- When start rows carry no round counter, every produced round's number is
at least i + 1. -/
lemma extractRoundsAux_number_lb :
    ∀ (starts : List StartRow) (i : Nat) (ends : List EndRow) (ct t : Int),
      (∀ s ∈ starts, s.round = none) →
      ∀ r ∈ extractRoundsAux starts i ends ct t, (i : Int) + 1 ≤ r.round_number := by
  intro starts
  induction starts with
  | nil => intro i ends ct t hn r hr; simp [extractRoundsAux] at hr
  | cons s rest ih =>
    intro i ends ct t hn r hr
    cases hs : s.tick with
    | none =>
      rw [extractRoundsAux_cons_badtick s rest i ends ct t hs] at hr
      simp at hr
    | some st =>
      cases hend : (ends.filter (endTickAfter st)).head? with
      | none =>
        rw [extractRoundsAux_cons_noend s rest i ends ct t st hs hend] at hr
        have := ih (i + 1) ends ct t (fun s' hs' => hn s' (List.mem_cons_of_mem _ hs')) r hr
        push_cast at this ⊢
        omega
      | some e =>
        obtain ⟨te, hte, _⟩ := head_filter_endTick ends st e hend
        rw [extractRoundsAux_cons_found s rest i ends ct t st te e hs hend hte] at hr
        rcases List.mem_cons.mp hr with h | h
        · rw [h]
          simp [hn s (List.mem_cons_self _ _)]
        · have := ih (i + 1) ends _ _ (fun s' hs' => hn s' (List.mem_cons_of_mem _ hs')) r h
          push_cast at this ⊢
          omega

/-- When start rows carry no round counter, produced round numbers strictly
increase along the output. -/
lemma extractRoundsAux_pairwise :
    ∀ (starts : List StartRow) (i : Nat) (ends : List EndRow) (ct t : Int),
      (∀ s ∈ starts, s.round = none) →
      (extractRoundsAux starts i ends ct t).Pairwise
        (fun a b => a.round_number < b.round_number) := by
  intro starts
  induction starts with
  | nil => intro i ends ct t hn; simp [extractRoundsAux]
  | cons s rest ih =>
    intro i ends ct t hn
    cases hs : s.tick with
    | none =>
      rw [extractRoundsAux_cons_badtick s rest i ends ct t hs]
      simp
    | some st =>
      cases hend : (ends.filter (endTickAfter st)).head? with
      | none =>
        rw [extractRoundsAux_cons_noend s rest i ends ct t st hs hend]
        exact ih (i + 1) ends ct t (fun s' hs' => hn s' (List.mem_cons_of_mem _ hs'))
      | some e =>
        obtain ⟨te, hte, _⟩ := head_filter_endTick ends st e hend
        rw [extractRoundsAux_cons_found s rest i ends ct t st te e hs hend hte]
        refine List.Pairwise.cons ?_
          (ih (i + 1) ends _ _ (fun s' hs' => hn s' (List.mem_cons_of_mem _ hs')))
        intro r hr
        have hlb := extractRoundsAux_number_lb rest (i + 1) ends _ _
          (fun s' hs' => hn s' (List.mem_cons_of_mem _ hs')) r hr
        simp only [hn s (List.mem_cons_self _ _), Option.getD_none]
        push_cast at hlb ⊢
        omega

/-- Counterexample to C5: two start rows that both carry the round counter
value 5 produce two rounds both numbered 5, so round_number does not strictly
increase across the returned sequence (start_tick < end_tick still holds). -/
theorem c5_counterexample :
    extract_rounds [⟨some 0, some 5⟩, ⟨some 10, some 5⟩] [⟨some 100, "T"⟩] =
      [⟨5, 0, 100, 2, 0, 1, false⟩, ⟨5, 10, 100, 2, 0, 2, false⟩] ∧
    ¬ (extract_rounds [⟨some 0, some 5⟩, ⟨some 10, some 5⟩]
        [⟨some 100, "T"⟩]).Pairwise
      (fun a b => a.round_number < b.round_number) := by decide

/-- C5 (amended): every reconstructed round satisfies
start_tick < end_tick; round_number strictly increases across the returned
sequence whenever the start rows carry no round counter field (the counter is
then the enumeration index plus one) — when start rows do carry the field,
round_number equals that field's value and need not increase. -/
theorem c5_amended_monotonicity :
    (∀ (round_starts : List StartRow) (round_ends : List EndRow),
      ∀ r ∈ extract_rounds round_starts round_ends, r.start_tick < r.end_tick) ∧
    (∀ (round_starts : List StartRow) (round_ends : List EndRow),
      (∀ s ∈ round_starts, s.round = none) →
      (extract_rounds round_starts round_ends).Pairwise
        (fun a b => a.round_number < b.round_number)) := by
  constructor
  · intro round_starts round_ends r hr
    unfold extract_rounds at hr
    cases h1 : round_starts.isEmpty with
    | true => rw [h1] at hr; simp at hr
    | false =>
      rw [h1] at hr
      cases h2 : round_ends.isEmpty with
      | true => rw [h2] at hr; simp at hr
      | false =>
        rw [h2] at hr
        exact extractRoundsAux_start_lt_end round_starts 0 round_ends 0 0 r hr
  · intro round_starts round_ends hn
    unfold extract_rounds
    cases h1 : round_starts.isEmpty with
    | true => simp
    | false =>
      cases h2 : round_ends.isEmpty with
      | true => simp
      | false =>
        simp only [Bool.false_eq_true, if_false]
        exact extractRoundsAux_pairwise round_starts 0 round_ends 0 0 hn

/-- Witness for C5 (amended): two index-numbered rounds are strictly
increasing and each starts before it ends. -/
theorem c5_amended_monotonicity_witness :
    (extract_rounds [⟨some 0, none⟩, ⟨some 10, none⟩]
        [⟨some 5, "T"⟩, ⟨some 20, "CT"⟩]).Pairwise
      (fun a b => a.round_number < b.round_number) ∧
    (⟨1, 0, 5, 2, 0, 1, true⟩ : RoundInfo).start_tick <
      (⟨1, 0, 5, 2, 0, 1, true⟩ : RoundInfo).end_tick := by
  constructor
  · exact c5_amended_monotonicity.2 _ _ (by decide)
  · refine c5_amended_monotonicity.1 [⟨some 0, none⟩, ⟨some 10, none⟩]
      [⟨some 5, "T"⟩, ⟨some 20, "CT"⟩] _ ?_
    have h : extract_rounds [⟨some 0, none⟩, ⟨some 10, none⟩]
        [⟨some 5, "T"⟩, ⟨some 20, "CT"⟩] =
        [⟨1, 0, 5, 2, 0, 1, true⟩, ⟨2, 10, 20, 3, 1, 1, false⟩] := by decide
    rw [h]
    exact List.mem_cons_self _ _

/-- Each produced round is flagged pistol exactly when its number is 1 or 13. -/
lemma extractRoundsAux_pistol :
    ∀ (starts : List StartRow) (i : Nat) (ends : List EndRow) (ct t : Int),
      ∀ r ∈ extractRoundsAux starts i ends ct t,
        (r.is_pistol_round = true ↔ (r.round_number = 1 ∨ r.round_number = 13)) := by
  intro starts
  induction starts with
  | nil => intro i ends ct t r hr; simp [extractRoundsAux] at hr
  | cons s rest ih =>
    intro i ends ct t r hr
    cases hs : s.tick with
    | none =>
      rw [extractRoundsAux_cons_badtick s rest i ends ct t hs] at hr
      simp at hr
    | some st =>
      cases hend : (ends.filter (endTickAfter st)).head? with
      | none =>
        rw [extractRoundsAux_cons_noend s rest i ends ct t st hs hend] at hr
        exact ih (i + 1) ends ct t r hr
      | some e =>
        obtain ⟨te, hte, _⟩ := head_filter_endTick ends st e hend
        rw [extractRoundsAux_cons_found s rest i ends ct t st te e hs hend hte] at hr
        rcases List.mem_cons.mp hr with h | h
        · rw [h]
          simp [decide_eq_true_eq]
        · exact ih (i + 1) ends _ _ r h

/-- Counterexample to C6: a start row carrying round counter 25 (25 mod 12 = 1,
so the claim calls it a pistol round) is reconstructed with
is_pistol_round = false. -/
theorem c6_counterexample :
    extract_rounds [⟨some 0, some 25⟩] [⟨some 10, "T"⟩] =
      [⟨25, 0, 10, 2, 0, 1, false⟩] ∧
    (25 : Int) % 12 = 1 := by decide

/-- C6 (amended): a reconstructed round is flagged as a pistol round exactly
when its round_number is 1 or 13 — the hardcoded first rounds of the two
regulation halves — not for every round_number congruent to 1 mod 12. -/
theorem c6_amended_pistol (round_starts : List StartRow) (round_ends : List EndRow) :
    ∀ r ∈ extract_rounds round_starts round_ends,
      (r.is_pistol_round = true ↔ (r.round_number = 1 ∨ r.round_number = 13)) := by
  intro r hr
  unfold extract_rounds at hr
  cases h1 : round_starts.isEmpty with
  | true => rw [h1] at hr; simp at hr
  | false =>
    rw [h1] at hr
    cases h2 : round_ends.isEmpty with
    | true => rw [h2] at hr; simp at hr
    | false =>
      rw [h2] at hr
      exact extractRoundsAux_pistol round_starts 0 round_ends 0 0 r hr

/-- Witness for C6 (amended): round 1 of a concrete reconstruction is flagged
as a pistol round. -/
theorem c6_amended_pistol_witness :
    (⟨1, 0, 10, 2, 0, 1, true⟩ : RoundInfo).is_pistol_round = true := by
  refine (c6_amended_pistol [⟨some 0, none⟩] [⟨some 10, "T"⟩]
    ⟨1, 0, 10, 2, 0, 1, true⟩ ?_).mpr (by decide)
  have h : extract_rounds [⟨some 0, none⟩] [⟨some 10, "T"⟩] =
      [⟨1, 0, 10, 2, 0, 1, true⟩] := by decide
  rw [h]
  exact List.mem_cons_self _ _

/-- With no end rows at all, no round is ever produced. -/
lemma extractRoundsAux_nil_ends :
    ∀ (starts : List StartRow) (i : Nat) (ct t : Int),
      extractRoundsAux starts i [] ct t = [] := by
  intro starts
  induction starts with
  | nil => intro i ct t; rfl
  | cons s rest ih =>
    intro i ct t
    cases hs : s.tick with
    | none => exact extractRoundsAux_cons_badtick s rest i [] ct t hs
    | some st =>
      rw [extractRoundsAux_cons_noend s rest i [] ct t st hs (by rfl)]
      exact ih (i + 1) ct t

/-- A start row with a missing tick ends processing: everything after it is
discarded and the loop behaves as if the list stopped just before the row. -/
lemma extractRoundsAux_append_badstart :
    ∀ (xs ys : List StartRow) (rf : Option Int) (i : Nat) (ends : List EndRow)
      (ct t : Int),
      extractRoundsAux (xs ++ ⟨none, rf⟩ :: ys) i ends ct t =
        extractRoundsAux xs i ends ct t := by
  intro xs
  induction xs with
  | nil =>
    intro ys rf i ends ct t
    rw [List.nil_append]
    exact extractRoundsAux_cons_badtick _ ys i ends ct t rfl
  | cons s rest ih =>
    intro ys rf i ends ct t
    rw [List.cons_append]
    cases hs : s.tick with
    | none =>
      rw [extractRoundsAux_cons_badtick s _ i ends ct t hs,
        extractRoundsAux_cons_badtick s rest i ends ct t hs]
    | some st =>
      cases hend : (ends.filter (endTickAfter st)).head? with
      | none =>
        rw [extractRoundsAux_cons_noend s _ i ends ct t st hs hend,
          extractRoundsAux_cons_noend s rest i ends ct t st hs hend]
        exact ih ys rf (i + 1) ends ct t
      | some e =>
        obtain ⟨te, hte, _⟩ := head_filter_endTick ends st e hend
        rw [extractRoundsAux_cons_found s _ i ends ct t st te e hs hend hte,
          extractRoundsAux_cons_found s rest i ends ct t st te e hs hend hte,
          ih ys rf (i + 1) ends]

/-- An end row with a missing tick never matches any start row's filter. -/
lemma filter_endTick_append_bad (xs ys : List EndRow) (w : String) (st : Int) :
    (xs ++ (⟨none, w⟩ : EndRow) :: ys).filter (endTickAfter st) =
      (xs ++ ys).filter (endTickAfter st) := by
  rw [List.filter_append, List.filter_append, List.filter_cons_of_neg]
  simp [endTickAfter]

/-- An end row with a missing tick is simply invisible to the reconstruction. -/
lemma extractRoundsAux_append_badend :
    ∀ (starts : List StartRow) (i : Nat) (xs ys : List EndRow) (w : String)
      (ct t : Int),
      extractRoundsAux starts i (xs ++ ⟨none, w⟩ :: ys) ct t =
        extractRoundsAux starts i (xs ++ ys) ct t := by
  intro starts
  induction starts with
  | nil => intro i xs ys w ct t; rfl
  | cons s rest ih =>
    intro i xs ys w ct t
    cases hs : s.tick with
    | none =>
      rw [extractRoundsAux_cons_badtick s rest i _ ct t hs,
        extractRoundsAux_cons_badtick s rest i _ ct t hs]
    | some st =>
      have hf := filter_endTick_append_bad xs ys w st
      cases hend : ((xs ++ ys).filter (endTickAfter st)).head? with
      | none =>
        rw [extractRoundsAux_cons_noend s rest i _ ct t st hs (by rw [hf]; exact hend),
          extractRoundsAux_cons_noend s rest i _ ct t st hs hend]
        exact ih (i + 1) xs ys w ct t
      | some e =>
        obtain ⟨te, hte, _⟩ := head_filter_endTick (xs ++ ys) st e hend
        rw [extractRoundsAux_cons_found s rest i _ ct t st te e hs (by rw [hf]; exact hend) hte,
          extractRoundsAux_cons_found s rest i _ ct t st te e hs hend hte,
          ih (i + 1) xs ys w]

/-- Counterexample to C7: a leading start row with a missing tick makes
reconstruction return no rounds at all, while the same input without the
malformed row reconstructs one round — the malformed row is not merely
skipped, the rounds reconstructable from the remaining well-formed rows
are lost too. -/
theorem c7_counterexample :
    extract_rounds [⟨none, none⟩, ⟨some 0, none⟩] [⟨some 100, "T"⟩] = [] ∧
    extract_rounds [⟨some 0, none⟩] [⟨some 100, "T"⟩] =
      [⟨1, 0, 100, 2, 0, 1, true⟩] := by decide

/-- C7 (amended): a malformed row never aborts reconstruction with an error,
but the two row kinds differ.  A start row missing its tick stops processing
at that row: the result is exactly the rounds reconstructed from the rows
before it (later rows are lost, not skipped).  An end row missing its tick is
skipped transparently: the result is as if the row were absent. -/
theorem c7_amended_malformed_rows :
    (∀ (xs ys : List StartRow) (rf : Option Int) (round_ends : List EndRow),
      extract_rounds (xs ++ ⟨none, rf⟩ :: ys) round_ends =
        extract_rounds xs round_ends) ∧
    (∀ (round_starts : List StartRow) (xs ys : List EndRow) (w : String),
      extract_rounds round_starts (xs ++ ⟨none, w⟩ :: ys) =
        extract_rounds round_starts (xs ++ ys)) := by
  constructor
  · intro xs ys rf round_ends
    unfold extract_rounds
    have h1 : (xs ++ (⟨none, rf⟩ : StartRow) :: ys).isEmpty = false := by
      cases xs <;> rfl
    rw [h1]
    cases h2 : round_ends.isEmpty with
    | true => simp
    | false =>
      simp only [Bool.false_eq_true, if_false]
      rw [extractRoundsAux_append_badstart xs ys rf 0 round_ends 0 0]
      cases h3 : xs.isEmpty with
      | true =>
        rw [if_pos rfl]
        rw [List.isEmpty_iff] at h3
        rw [h3]
        rfl
      | false => rw [if_neg (by simp)]
  · intro round_starts xs ys w
    unfold extract_rounds
    cases h1 : round_starts.isEmpty with
    | true => simp
    | false =>
      simp only [Bool.false_eq_true, if_false]
      have h2 : (xs ++ (⟨none, w⟩ : EndRow) :: ys).isEmpty = false := by
        cases xs <;> rfl
      rw [h2]
      simp only [Bool.false_eq_true, if_false]
      rw [extractRoundsAux_append_badend round_starts 0 xs ys w 0 0]
      cases h3 : (xs ++ ys).isEmpty with
      | true =>
        rw [if_pos rfl]
        rw [List.isEmpty_iff] at h3
        rw [h3]
        exact extractRoundsAux_nil_ends round_starts 0 0 0
      | false => rw [if_neg (by simp)]

/-! ### Damage matrix lemmas -/

/-- Adding damage to one victim cell raises the attacker row total by exactly
that damage. -/
lemma innerTotal_add (inner : List (String × Int)) (victim : String) (damage : Int) :
    innerTotal (damageMatrixAddInner inner victim damage) =
      innerTotal inner + damage := by
  induction inner with
  | nil => simp [damageMatrixAddInner, innerTotal]
  | cons p rest ih =>
    obtain ⟨k, x⟩ := p
    by_cases h : k = victim
    · simp [damageMatrixAddInner, h, innerTotal]
      ring
    · simp only [damageMatrixAddInner, if_neg h, innerTotal, List.map_cons,
        List.sum_cons] at ih ⊢
      omega

/-- Adding damage to one cell raises the matrix grand total by exactly that
damage. -/
lemma matrixTotal_add (m : List (String × List (String × Int)))
    (attacker victim : String) (damage : Int) :
    matrixTotal (damageMatrixAdd m attacker victim damage) =
      matrixTotal m + damage := by
  induction m with
  | nil => simp [damageMatrixAdd, matrixTotal, innerTotal]
  | cons p rest ih =>
    obtain ⟨k, inner⟩ := p
    by_cases h : k = attacker
    · simp only [damageMatrixAdd, if_pos h, matrixTotal, List.map_cons,
        List.sum_cons, innerTotal_add]
      ring
    · simp only [damageMatrixAdd, if_neg h, matrixTotal, List.map_cons,
        List.sum_cons] at ih ⊢
      omega

/-- Fold invariant: the grand total accumulated over the rows equals the
initial total plus the damage of every row passing the attacker/victim
filter. -/
lemma damageMatrix_foldl_total :
    ∀ (rows : List HurtRow) (m : List (String × List (String × Int))),
      matrixTotal (rows.foldl damageMatrixStep m) =
        matrixTotal m +
          ((rows.filter (fun r => decide (r.attacker_steamid ≠ "" ∧
            r.user_steamid ≠ "" ∧ r.attacker_steamid ≠ "0"))).map
            (fun r => r.dmg_health)).sum := by
  intro rows
  induction rows with
  | nil => intro m; simp
  | cons r rest ih =>
    intro m
    by_cases h : r.attacker_steamid ≠ "" ∧ r.user_steamid ≠ "" ∧
        r.attacker_steamid ≠ "0"
    · have hx : (r :: rest).filter (fun r => decide (r.attacker_steamid ≠ "" ∧
          r.user_steamid ≠ "" ∧ r.attacker_steamid ≠ "0")) =
          r :: rest.filter (fun r => decide (r.attacker_steamid ≠ "" ∧
          r.user_steamid ≠ "" ∧ r.attacker_steamid ≠ "0")) := by
        simp only [List.filter_cons, decide_eq_true h, if_true]
      rw [List.foldl_cons, hx]
      simp only [damageMatrixStep, if_pos h, List.map_cons, List.sum_cons]
      rw [ih, matrixTotal_add]
      ring
    · have hx : (r :: rest).filter (fun r => decide (r.attacker_steamid ≠ "" ∧
          r.user_steamid ≠ "" ∧ r.attacker_steamid ≠ "0")) =
          rest.filter (fun r => decide (r.attacker_steamid ≠ "" ∧
          r.user_steamid ≠ "" ∧ r.attacker_steamid ≠ "0")) := by
        simp only [List.filter_cons, decide_eq_false h, Bool.false_eq_true,
          if_false]
      rw [List.foldl_cons, hx]
      simp only [damageMatrixStep, if_neg h]
      exact ih m

/-- Every entry of the updated matrix either has the inserted attacker key or
was already present. -/
lemma damageMatrixAdd_fst :
    ∀ (m : List (String × List (String × Int))) (attacker victim : String)
      (damage : Int) (p : String × List (String × Int)),
      p ∈ damageMatrixAdd m attacker victim damage → p.1 = attacker ∨ p ∈ m := by
  intro m
  induction m with
  | nil =>
    intro attacker victim damage p hp
    simp [damageMatrixAdd] at hp
    left
    rw [hp]
  | cons q rest ih =>
    intro attacker victim damage p hp
    obtain ⟨k, inner⟩ := q
    by_cases h : k = attacker
    · rw [damageMatrixAdd, if_pos h] at hp
      rcases List.mem_cons.mp hp with h1 | h1
      · left; rw [h1, h]
      · right; exact List.mem_cons_of_mem _ h1
    · rw [damageMatrixAdd, if_neg h] at hp
      rcases List.mem_cons.mp hp with h1 | h1
      · right; rw [h1]; exact List.mem_cons_self _ _
      · rcases ih attacker victim damage p h1 with h2 | h2
        · left; exact h2
        · right; exact List.mem_cons_of_mem _ h2

/-- Fold invariant: the attacker key `"0"` is never created. -/
lemma damageMatrix_foldl_keys :
    ∀ (rows : List HurtRow) (m : List (String × List (String × Int))),
      (∀ p ∈ m, p.1 ≠ "0") →
      ∀ p ∈ rows.foldl damageMatrixStep m, p.1 ≠ "0" := by
  intro rows
  induction rows with
  | nil => intro m hm p hp; exact hm p hp
  | cons r rest ih =>
    intro m hm p hp
    rw [List.foldl_cons] at hp
    refine ih (damageMatrixStep m r) ?_ p hp
    intro q hq
    unfold damageMatrixStep at hq
    by_cases h : r.attacker_steamid ≠ "" ∧ r.user_steamid ≠ "" ∧
        r.attacker_steamid ≠ "0"
    · rw [if_pos h] at hq
      rcases damageMatrixAdd_fst m _ _ _ q hq with h1 | h1
      · rw [h1]; exact h.2.2
      · exact hm q h1
    · rw [if_neg h] at hq
      exact hm q hq

/-- Counterexample to C8: a hurt row with a nonempty attacker id but an empty
victim id (attacker "5", victim "", damage 10) is excluded from the matrix,
so the grand total is 0 while the claim's sum over rows with attacker id
outside {"", "0"} is 10. -/
theorem c8_counterexample :
    matrixTotal (extract_damage_matrix [⟨1, "ak47", "5", "", "n", 3, 10⟩]) = 0 ∧
    (([(⟨1, "ak47", "5", "", "n", 3, 10⟩ : HurtRow)].filter (fun r =>
        decide (r.attacker_steamid ≠ "" ∧ r.attacker_steamid ≠ "0"))).map
        (fun r => r.dmg_health)).sum = 10 := by decide

/-- C8 (amended): the damage-matrix grand total equals the sum of dmg_health
over exactly the hurt rows whose attacker id is outside {"", "0"} AND whose
victim id is nonempty; and the attacker key "0" never appears in the matrix. -/
theorem c8_amended_matrix_total (hurt_df : List HurtRow) :
    matrixTotal (extract_damage_matrix hurt_df) =
      ((hurt_df.filter (fun r => decide (r.attacker_steamid ≠ "" ∧
        r.user_steamid ≠ "" ∧ r.attacker_steamid ≠ "0"))).map
        (fun r => r.dmg_health)).sum ∧
    ∀ p ∈ extract_damage_matrix hurt_df, p.1 ≠ "0" := by
  constructor
  · have h := damageMatrix_foldl_total hurt_df []
    simpa [extract_damage_matrix, matrixTotal] using h
  · exact damageMatrix_foldl_keys hurt_df [] (by simp)

/-- Witness for C8 (amended): two rows, one with attacker "0" (excluded) and
one with attacker "5" and victim "7" (kept), give total 25, and the kept key
is not "0". -/
theorem c8_amended_matrix_total_witness :
    matrixTotal (extract_damage_matrix
      [⟨1, "ak47", "0", "7", "n", 3, 99⟩, ⟨2, "ak47", "5", "7", "n", 3, 25⟩]) = 25 ∧
    (("5", [("7", 25)]) : String × List (String × Int)).1 ≠ "0" := by
  constructor
  · rw [(c8_amended_matrix_total
      [⟨1, "ak47", "0", "7", "n", 3, 99⟩, ⟨2, "ak47", "5", "7", "n", 3, 25⟩]).1]
    decide
  · exact (c8_amended_matrix_total
      [⟨1, "ak47", "0", "7", "n", 3, 99⟩, ⟨2, "ak47", "5", "7", "n", 3, 25⟩]).2
      ("5", [("7", 25)]) (by decide)

/-! ### Streaming chunk lemmas -/

/-- With a positive chunk size and at least one tick, the chunk count is the
successor form of the ceiling division. -/
lemma numChunks_of_pos (total_ticks chunk_size : Nat) (ht : 0 < total_ticks)
    (hcs : 0 < chunk_size) :
    numChunks total_ticks chunk_size = (total_ticks - 1) / chunk_size + 1 := by
  unfold numChunks
  rw [show total_ticks + chunk_size - 1 = (total_ticks - 1) + chunk_size by omega,
    Nat.add_div_right _ hcs]

/-- No ticks yield no chunks. -/
lemma numChunks_zero (chunk_size : Nat) (hcs : 0 < chunk_size) :
    numChunks 0 chunk_size = 0 := by
  unfold numChunks
  exact Nat.div_eq_of_lt (by omega)

/-- The chunks cover all ticks. -/
lemma le_numChunks_mul (total_ticks chunk_size : Nat) (hcs : 0 < chunk_size) :
    total_ticks ≤ numChunks total_ticks chunk_size * chunk_size := by
  rcases Nat.eq_zero_or_pos total_ticks with h | h
  · rw [h]
    exact Nat.zero_le _
  · rw [numChunks_of_pos _ _ h hcs]
    have hd := (Nat.div_lt_iff_lt_mul hcs).mp
      (Nat.lt_succ_self ((total_ticks - 1) / chunk_size))
    simp only [Nat.succ_eq_add_one] at hd
    omega

/-- The chunk count is minimal among covers, i.e. it is the ceiling of
total_ticks / chunk_size. -/
lemma numChunks_min (total_ticks chunk_size m : Nat) (hcs : 0 < chunk_size)
    (hm : total_ticks ≤ m * chunk_size) :
    numChunks total_ticks chunk_size ≤ m := by
  rcases Nat.eq_zero_or_pos total_ticks with h | h
  · rw [h, numChunks_zero _ hcs]
    exact Nat.zero_le m
  · rw [numChunks_of_pos _ _ h hcs]
    have hlt : (total_ticks - 1) / chunk_size < m := by
      rw [Nat.div_lt_iff_lt_mul hcs]
      omega
    omega

/-- All chunks before the last start strictly inside the tick list. -/
lemma pred_numChunks_mul_lt (total_ticks chunk_size : Nat) (ht : 0 < total_ticks)
    (hcs : 0 < chunk_size) :
    (numChunks total_ticks chunk_size - 1) * chunk_size < total_ticks := by
  rw [numChunks_of_pos _ _ ht hcs, Nat.add_sub_cancel]
  have hd := Nat.div_mul_le_self (total_ticks - 1) chunk_size
  omega

/-- C9: for a positive chunk size the streaming tick loop emits exactly
ceil(totalTicks / chunkSize) chunks — the least count whose chunks of
chunkSize records cover all ticks; the k-th emitted chunk has chunk_index k
and total_chunks equal to the chunk count; every chunk but the last holds
chunkSize records, and the last holds totalTicks - (count - 1) * chunkSize. -/
theorem c9_tick_chunking {α : Type} (all_ticks : List α) (chunk_size : Nat)
    (hcs : 0 < chunk_size) :
    (parse_streaming_ticks all_ticks chunk_size).length =
        numChunks all_ticks.length chunk_size ∧
    all_ticks.length ≤ numChunks all_ticks.length chunk_size * chunk_size ∧
    (∀ m, all_ticks.length ≤ m * chunk_size →
      numChunks all_ticks.length chunk_size ≤ m) ∧
    (∀ (k : Nat) (c : TicksChunk α),
      (parse_streaming_ticks all_ticks chunk_size)[k]? = some c →
      c.chunk_index = k ∧
      c.total_chunks = numChunks all_ticks.length chunk_size ∧
      (k + 1 < numChunks all_ticks.length chunk_size →
        c.ticks.length = chunk_size) ∧
      (k + 1 = numChunks all_ticks.length chunk_size →
        c.ticks.length = all_ticks.length - k * chunk_size)) := by
  refine ⟨by simp [parse_streaming_ticks], le_numChunks_mul _ _ hcs,
    fun m hm => numChunks_min _ _ m hcs hm, ?_⟩
  intro k c hr
  simp only [parse_streaming_ticks] at hr
  rcases Nat.lt_or_ge k (numChunks all_ticks.length chunk_size) with hk | hk
  · rw [List.getElem?_map, List.getElem?_range hk] at hr
    simp only [Option.map_some'] at hr
    have hc := Option.some_inj.mp hr
    subst hc
    have ht : 0 < all_ticks.length := by
      by_contra hz
      have h0 : all_ticks.length = 0 := by omega
      rw [h0, numChunks_zero _ hcs] at hk
      omega
    have hmul : (k + 1) * chunk_size = k * chunk_size + chunk_size :=
      Nat.succ_mul k chunk_size
    refine ⟨rfl, rfl, ?_, ?_⟩
    · intro hlast
      have h2 : k + 1 ≤ numChunks all_ticks.length chunk_size - 1 := by omega
      have h3 : (k + 1) * chunk_size ≤
          (numChunks all_ticks.length chunk_size - 1) * chunk_size :=
        Nat.mul_le_mul_right chunk_size h2
      have h4 := pred_numChunks_mul_lt all_ticks.length chunk_size ht hcs
      simp only [List.length_take, List.length_drop]
      omega
    · intro hlast
      have h5 : all_ticks.length ≤ (k + 1) * chunk_size := by
        have := le_numChunks_mul all_ticks.length chunk_size hcs
        rw [← hlast] at this
        exact this
      have h6 : k * chunk_size < all_ticks.length := by
        have := pred_numChunks_mul_lt all_ticks.length chunk_size ht hcs
        rw [← hlast, Nat.add_sub_cancel] at this
        exact this
      simp only [List.length_take, List.length_drop]
      omega
  · rw [List.getElem?_map, List.getElem?_eq_none (by simpa using hk)] at hr
    simp at hr

/-- Witness for C9: streaming 25 ticks with chunk size 10 (the spec's
25000/10000 example scaled by 1000) emits three chunks with indices 0, 1, 2,
each carrying total_chunks 3, of sizes 10, 10 and 5. -/
theorem c9_tick_chunking_witness :
    0 < 10 ∧
    (parse_streaming_ticks (List.replicate 25 (0 : Nat)) 10).length =
      numChunks (List.replicate 25 (0 : Nat)).length 10 ∧
    (parse_streaming_ticks (List.replicate 25 (0 : Nat)) 10).map
      (fun c => (c.chunk_index, c.total_chunks, c.ticks.length)) =
      [(0, 3, 10), (1, 3, 10), (2, 3, 5)] := by
  exact ⟨by decide,
    (c9_tick_chunking (List.replicate 25 (0 : Nat)) 10 (by decide)).1, by decide⟩

/-! ### Writer lemmas -/

/-- While the sink is open, a sequence of NDJSON writes just appends lines. -/
lemma ndjson_foldlM_writes :
    ∀ (cs : List SChunk) (w : NDJSONWriter), w.fileOpen = true →
      List.foldlM NDJSONWriter.write_chunk w cs =
        Except.ok ⟨true, w.written ++ cs, w.closeCount⟩ := by
  intro cs
  induction cs with
  | nil =>
    intro w h
    obtain ⟨fo, wr, cc⟩ := w
    simp only at h
    subst h
    simp only [List.foldlM, List.append_nil]
    rfl
  | cons c rest ih =>
    intro w h
    rw [List.foldlM_cons]
    have hw : NDJSONWriter.write_chunk w c =
        Except.ok { w with written := w.written ++ [c] } := by
      unfold NDJSONWriter.write_chunk
      rw [if_pos h]
    rw [hw]
    show List.foldlM NDJSONWriter.write_chunk
      { w with written := w.written ++ [c] } rest = _
    rw [ih { w with written := w.written ++ [c] } h]
    simp

/-- A fresh NDJSON writer never raises during its writes: the run returns the
open state holding exactly the written lines. -/
lemma ndjson_runWrites_eq (cs : List SChunk) :
    NDJSONWriter.runWrites cs = Except.ok ⟨true, cs, 0⟩ := by
  unfold NDJSONWriter.runWrites
  rw [ndjson_foldlM_writes cs NDJSONWriter.init rfl]
  rfl

/-- A sequence of JSON writes just appends to the buffer. -/
lemma json_foldl_writes :
    ∀ (cs : List SChunk) (w : JSONWriter),
      List.foldl JSONWriter.write_chunk w cs =
        ⟨w.chunks ++ cs, w.fileBytes, w.writeCount⟩ := by
  intro cs
  induction cs with
  | nil =>
    intro w
    obtain ⟨ch, fb, wc⟩ := w
    simp
  | cons c rest ih =>
    intro w
    rw [List.foldl_cons, ih]
    simp [JSONWriter.write_chunk]

/-- A fresh JSON writer after its writes buffers exactly the written chunks. -/
lemma json_runWrites_eq (cs : List SChunk) :
    JSONWriter.runWrites cs = ⟨cs, none, 0⟩ := by
  unfold JSONWriter.runWrites
  rw [json_foldl_writes cs JSONWriter.init]
  rfl

/-- Counterexample to C10: for the buffered JSON writer and the empty write
sequence, finalize() performs no flush at all — it writes the output file
zero times, not exactly once, and leaves the writer untouched. -/
theorem c10_counterexample :
    JSONWriter.finalize (JSONWriter.runWrites []) = JSONWriter.runWrites [] ∧
    (JSONWriter.finalize (JSONWriter.runWrites [])).writeCount = 0 ∧
    (JSONWriter.finalize (JSONWriter.runWrites [])).fileBytes = none := by decide

/-- C10 (amended): for every write sequence, the NDJSON writer's finalize()
closes the sink exactly once, leaves exactly the written lines in the output,
and a second finalize() is a no-op; the JSON writer's finalize() is likewise
idempotent and writes the combined output exactly once when at least one
chunk was buffered, but performs nothing at all on an empty buffer. -/
theorem c10_amended_finalize :
    (∀ (cs : List SChunk) (w : NDJSONWriter),
      NDJSONWriter.runWrites cs = Except.ok w →
      (w.finalize).closeCount = 1 ∧
      (w.finalize).fileOpen = false ∧
      (w.finalize).written = cs ∧
      (w.finalize).finalize = w.finalize) ∧
    (∀ cs : List SChunk,
      ((JSONWriter.runWrites cs).finalize).finalize =
        (JSONWriter.runWrites cs).finalize ∧
      (cs ≠ [] → ((JSONWriter.runWrites cs).finalize.writeCount = 1 ∧
        (JSONWriter.runWrites cs).finalize.fileBytes = some cs)) ∧
      (cs = [] → (JSONWriter.runWrites cs).finalize = JSONWriter.runWrites cs)) := by
  constructor
  · intro cs w h
    rw [ndjson_runWrites_eq cs] at h
    have hw : w = ⟨true, cs, 0⟩ := by
      cases h
      rfl
    subst hw
    refine ⟨rfl, rfl, rfl, ?_⟩
    rfl
  · intro cs
    rw [json_runWrites_eq cs]
    cases cs with
    | nil => exact ⟨rfl, fun h => absurd rfl h, fun _ => rfl⟩
    | cons c rest =>
      refine ⟨rfl, fun _ => ⟨rfl, rfl⟩, fun h => ?_⟩
      exact absurd h (by simp)

/-- Witness for C10 (amended): a single-chunk run of each writer. -/
theorem c10_amended_finalize_witness :
    ((⟨true, [⟨"ticks", 0, some 3, "p"⟩], 0⟩ : NDJSONWriter).finalize).closeCount = 1 ∧
    ((JSONWriter.runWrites [⟨"ticks", 0, some 3, "p"⟩]).finalize).finalize =
      (JSONWriter.runWrites [⟨"ticks", 0, some 3, "p"⟩]).finalize := by
  constructor
  · exact (c10_amended_finalize.1 [⟨"ticks", 0, some 3, "p"⟩]
      ⟨true, [⟨"ticks", 0, some 3, "p"⟩], 0⟩ (by rfl)).1
  · exact (c10_amended_finalize.2 [⟨"ticks", 0, some 3, "p"⟩]).1

end CS2Analytics
